import Mathlib

/-!
Verification of the tyre-scraping pipeline (`main.py`, `playwright_bythjul_test.py`)
against its natural-language specification.

Python strings are modelled as lists of Unicode codepoints (`PyStr`);
string methods (`strip`, `lower`, `capitalize`, `split`, `join`,
substring membership, `replace(" ", "")`) are embedded as executable
functions on `PyStr` following CPython semantics on the ASCII range.
Stateful parts (the rate-limited fetcher, the pagination loop, the
per-pair browser sessions of the Dexel scraper, the append-only store)
are embedded as explicit state passing or event traces.
-/

/-- Python strings as lists of Unicode codepoints. -/
abbrev PyStr := List Nat

/-- Codepoint list of a Lean string literal, for concrete test inputs. -/
def pystr (s : String) : PyStr := s.data.map Char.toNat

/-- ASCII whitespace, the characters removed by Python's `str.strip()`. -/
def pyIsSpace (c : Nat) : Bool :=
  c = 9 || c = 10 || c = 11 || c = 12 || c = 13 || c = 32

/-- Uppercasing of a single codepoint (ASCII range, as in `str.upper`). -/
def pyToUpperChar (c : Nat) : Nat := if 97 ≤ c ∧ c ≤ 122 then c - 32 else c

/-- Lowercasing of a single codepoint (ASCII range, as in `str.lower`). -/
def pyToLowerChar (c : Nat) : Nat := if 65 ≤ c ∧ c ≤ 90 then c + 32 else c

/-- Python `str.lower()`. -/
def pyLower (s : PyStr) : PyStr := s.map pyToLowerChar

/-- Python `str.capitalize()`: first character uppercased, the rest lowercased. -/
def pyCapitalize : PyStr → PyStr
  | [] => []
  | c :: cs => pyToUpperChar c :: cs.map pyToLowerChar

/-- Removal of leading whitespace (`str.lstrip()`). -/
def lstripWS : PyStr → PyStr
  | [] => []
  | c :: cs => if pyIsSpace c then lstripWS cs else c :: cs

/-- Python `str.strip()`: leading and trailing whitespace removed. -/
def pyStrip (s : PyStr) : PyStr := ((lstripWS s).reverse |> lstripWS).reverse

/-- Python `str.split()` with no separator: split on whitespace runs,
dropping empty tokens. -/
def pySplit (s : PyStr) : List PyStr :=
  (s.foldr
    (fun c acc =>
      if pyIsSpace c then [] :: acc
      else
        match acc with
        | [] => [[c]]
        | t :: ts => (c :: t) :: ts)
    []).filter (· ≠ [])

/-- Python `" ".join(parts)`. -/
def pyJoinSp : List PyStr → PyStr
  | [] => []
  | [x] => x
  | x :: y :: ys => x ++ 32 :: pyJoinSp (y :: ys)

/-- Whether `hay` starts with `needle` (helper for substring membership). -/
def pyStartsWith : PyStr → PyStr → Bool
  | _, [] => true
  | [], _ :: _ => false
  | c :: cs, d :: ds => c == d && pyStartsWith cs ds

/-- Python substring membership `needle in hay`. -/
def pyContains (hay needle : PyStr) : Bool :=
  match hay with
  | [] => needle == []
  | _ :: t => pyStartsWith hay needle || pyContains t needle

/-- Python `s.replace(" ", "")`: every space character removed. -/
def pyRemoveSpaces (s : PyStr) : PyStr := s.filter (fun c => !(c == 32))

-- The season handling of the two sources.

/-- Season conversion of the bythjul script (`playwright_bythjul_test.py`):
`'Vinterdäck'` becomes `'Winter'`, `'Sommardäck'` becomes `'Summer'`,
anything else is left unchanged. -/
def bythjulSeason (s : PyStr) : PyStr :=
  if s = pystr "Vinterdäck" then pystr "Winter"
  else if s = pystr "Sommardäck" then pystr "Summer"
  else s

/-- Season cleanup of the Dexel scraper (`parse_html`):
the icon title is stripped and capitalized. -/
def dexelSeason (s : PyStr) : PyStr := pyCapitalize (pyStrip s)

-- Elementary facts about the string model.

theorem pyToUpperChar_idem (c : Nat) :
    pyToUpperChar (pyToUpperChar c) = pyToUpperChar c := by
  unfold pyToUpperChar
  split
  · split <;> omega
  · rfl

theorem pyToLowerChar_idem (c : Nat) :
    pyToLowerChar (pyToLowerChar c) = pyToLowerChar c := by
  unfold pyToLowerChar
  split
  · split <;> omega
  · rfl

theorem pyIsSpace_toUpper (c : Nat) (h : pyIsSpace c = false) :
    pyIsSpace (pyToUpperChar c) = false := by
  simp only [pyIsSpace, Bool.or_eq_false_iff, decide_eq_false_iff_not] at h ⊢
  unfold pyToUpperChar
  split <;> omega

theorem pyIsSpace_toLower (c : Nat) (h : pyIsSpace c = false) :
    pyIsSpace (pyToLowerChar c) = false := by
  simp only [pyIsSpace, Bool.or_eq_false_iff, decide_eq_false_iff_not] at h ⊢
  unfold pyToLowerChar
  split <;> omega

theorem pyCapitalize_idem (s : PyStr) :
    pyCapitalize (pyCapitalize s) = pyCapitalize s := by
  cases s with
  | nil => rfl
  | cons c cs =>
      simp [pyCapitalize, pyToUpperChar_idem, List.map_map]
      intro x _
      exact pyToLowerChar_idem x

/-- No leading whitespace (on the codepoint-list model). -/
def noLeadWS (s : PyStr) : Prop := ∀ c, s.head? = some c → pyIsSpace c = false

theorem head?_append_left {α : Type} (a b : List α) (h : a ≠ []) :
    (a ++ b).head? = a.head? := by
  cases a with
  | nil => exact absurd rfl h
  | cons x xs => rfl

theorem head?_map {α β : Type} (f : α → β) (l : List α) :
    (l.map f).head? = l.head?.map f := by
  cases l <;> rfl

theorem noLeadWS_lstripWS (s : PyStr) : noLeadWS (lstripWS s) := by
  induction s with
  | nil => intro c h; simp [lstripWS] at h
  | cons x xs ih =>
      intro c h
      by_cases hx : pyIsSpace x
      · exact ih c (by simpa [lstripWS, hx] using h)
      · simp [lstripWS, hx] at h
        simp [← h, hx]

theorem lstripWS_of_noLeadWS (s : PyStr) (h : noLeadWS s) : lstripWS s = s := by
  cases s with
  | nil => rfl
  | cons x xs => simp [lstripWS, h x rfl]

theorem lstripWS_suffix (s : PyStr) : ∃ pre, s = pre ++ lstripWS s := by
  induction s with
  | nil => exact ⟨[], rfl⟩
  | cons x xs ih =>
      by_cases hx : pyIsSpace x
      · obtain ⟨pre, hpre⟩ := ih
        exact ⟨x :: pre, by simp [lstripWS, hx]; exact hpre⟩
      · exact ⟨[], by simp [lstripWS, hx]⟩

theorem noLeadWS_pyStrip (s : PyStr) : noLeadWS (pyStrip s) := by
  intro c h
  unfold pyStrip at h
  obtain ⟨pre, hpre⟩ := lstripWS_suffix ((lstripWS s).reverse)
  rcases heq : lstripWS ((lstripWS s).reverse) with _ | ⟨d, ds⟩
  · simp [heq] at h
  · have hne : (lstripWS ((lstripWS s).reverse)).reverse ≠ [] := by
      simp [heq]
    have h1 : lstripWS s = (lstripWS ((lstripWS s).reverse)).reverse ++ pre.reverse := by
      have := congrArg List.reverse hpre
      simpa [List.reverse_append] using this
    have h2 : (lstripWS s).head? = some c := by
      rw [h1, head?_append_left _ _ hne]
      exact h
    exact noLeadWS_lstripWS s c h2

theorem noLeadWS_reverse_pyStrip (s : PyStr) : noLeadWS (pyStrip s).reverse := by
  intro c h
  unfold pyStrip at h
  rw [List.reverse_reverse] at h
  exact noLeadWS_lstripWS _ c h

theorem pyStrip_of_noLead_noTrail (s : PyStr)
    (h1 : noLeadWS s) (h2 : noLeadWS s.reverse) : pyStrip s = s := by
  unfold pyStrip
  rw [lstripWS_of_noLeadWS s h1, lstripWS_of_noLeadWS s.reverse h2,
    List.reverse_reverse]

theorem noLeadWS_pyCapitalize (s : PyStr) (h : noLeadWS s) :
    noLeadWS (pyCapitalize s) := by
  cases s with
  | nil => intro c hc; simp [pyCapitalize] at hc
  | cons x xs =>
      intro c hc
      simp [pyCapitalize] at hc
      rw [← hc]
      exact pyIsSpace_toUpper x (h x rfl)

theorem noLeadWS_reverse_pyCapitalize (s : PyStr) (h : noLeadWS s.reverse) :
    noLeadWS (pyCapitalize s).reverse := by
  cases s with
  | nil => intro c hc; simp [pyCapitalize] at hc
  | cons x xs =>
      intro c hc
      rcases hxs : xs with _ | ⟨y, ys⟩
      · simp [pyCapitalize, hxs] at hc
        rw [← hc]
        exact pyIsSpace_toUpper x (h x (by simp [hxs]))
      · have hxsne : xs ≠ [] := by simp [hxs]
        have hrevne : xs.reverse ≠ [] := by simpa using hxsne
        have hmaprev : (xs.map pyToLowerChar).reverse = xs.reverse.map pyToLowerChar := by
          simp [List.map_reverse]
        have hc' : ((xs.map pyToLowerChar).reverse ++ [pyToUpperChar x]).head? = some c := by
          simpa only [pyCapitalize, List.reverse_cons] using hc
        rw [hmaprev] at hc'
        have hmapne : xs.reverse.map pyToLowerChar ≠ [] := by
          simpa using hrevne
        rw [head?_append_left _ _ hmapne, head?_map] at hc'
        rcases hh : xs.reverse.head? with _ | d
        · rw [hh] at hc'; simp at hc'
        · rw [hh] at hc'
          simp at hc'
          have hd : pyIsSpace d = false := by
            apply h d
            rw [List.reverse_cons, head?_append_left _ _ hrevne]
            exact hh
          rw [← hc']
          exact pyIsSpace_toLower d hd

theorem pyStrip_pyCapitalize_pyStrip (s : PyStr) :
    pyStrip (pyCapitalize (pyStrip s)) = pyCapitalize (pyStrip s) := by
  apply pyStrip_of_noLead_noTrail
  · exact noLeadWS_pyCapitalize _ (noLeadWS_pyStrip s)
  · exact noLeadWS_reverse_pyCapitalize _ (noLeadWS_reverse_pyStrip s)

/-- C8: season normalization is idempotent on both code paths, and the
bythjul vocabulary mapping passes unmapped values through unchanged:
the bythjul mapping (`'Vinterdäck'`→`'Winter'`, `'Sommardäck'`→`'Summer'`,
identity otherwise) is idempotent and is the identity outside the mapped
vocabulary, and the Dexel season cleanup `capitalize ∘ strip` is idempotent. -/
theorem season_normalization_idempotent :
    (∀ s : PyStr, bythjulSeason (bythjulSeason s) = bythjulSeason s) ∧
    (∀ s : PyStr, s ≠ pystr "Vinterdäck" → s ≠ pystr "Sommardäck" →
      bythjulSeason s = s) ∧
    (∀ s : PyStr, dexelSeason (dexelSeason s) = dexelSeason s) := by
  refine ⟨?_, ?_, ?_⟩
  · intro s
    unfold bythjulSeason
    split
    · simp [show pystr "Winter" ≠ pystr "Vinterdäck" by decide,
        show pystr "Winter" ≠ pystr "Sommardäck" by decide]
    · split
      · simp [show pystr "Summer" ≠ pystr "Vinterdäck" by decide,
          show pystr "Summer" ≠ pystr "Sommardäck" by decide]
      · simp_all
  · intro s h1 h2
    simp [bythjulSeason, h1, h2]
  · intro s
    unfold dexelSeason
    rw [pyStrip_pyCapitalize_pyStrip, pyCapitalize_idem]

/-- Witness for C8 at concrete inputs: an already-normalized `'Winter'` is a
fixed point of the bythjul mapping, the unmapped `'All Season'` passes
through unchanged, and the Dexel cleanup is idempotent on `'  winter '`. -/
theorem season_normalization_idempotent_witness :
    bythjulSeason (bythjulSeason (pystr "Vinterdäck")) =
      bythjulSeason (pystr "Vinterdäck") ∧
    bythjulSeason (pystr "All Season") = pystr "All Season" ∧
    dexelSeason (dexelSeason (pystr "  winter ")) =
      dexelSeason (pystr "  winter ") := by
  refine ⟨season_normalization_idempotent.1 (pystr "Vinterdäck"),
    season_normalization_idempotent.2.1 (pystr "All Season") (by decide) (by decide),
    season_normalization_idempotent.2.2 (pystr "  winter ")⟩

-- The observation schema and the append-only store.

/-- One recorded tyre listing: the Observation of the data model. -/
structure Observation where
  brand : PyStr
  pattern : PyStr
  size : PyStr
  season : PyStr
  price : PyStr
deriving DecidableEq

/-- A row of the append-only `tyres` table. -/
structure TyreRow where
  website_name : PyStr
  tyre_brand : PyStr
  tyre_pattern : PyStr
  tyre_size : PyStr
  seasonality : PyStr
  price : PyStr
deriving DecidableEq

/-- TyreScraper.add_to_database: appends exactly one row to the store;
every argument is stored verbatim except the season, which is lowercased
(`season.lower()`) in the INSERT. -/
def add_to_database (website : PyStr) (store : List TyreRow)
    (brand pattern size season price : PyStr) : List TyreRow :=
  store ++ [{ website_name := website, tyre_brand := brand, tyre_pattern := pattern,
              tyre_size := size, seasonality := pyLower season, price := price }]

/-- A string containing no ASCII uppercase letter. -/
def noUpper (s : PyStr) : Prop := ∀ c ∈ s, ¬(65 ≤ c ∧ c ≤ 90)

/-- The store invariant: every persisted row's seasonality is all-lowercase. -/
def storeSeasonLower (store : List TyreRow) : Prop :=
  ∀ r ∈ store, noUpper r.seasonality

-- The Dexel per-card normalizer (DexelScraper.parse_html, per tyre div).

/-- The raw pieces `parse_html` reads from one Dexel tyre card; a `none`
field means the element / attribute / JSON key lookup failed, on which the
Python code raises (`AttributeError` on `None`). -/
structure DexelCard where
  brandVal : Option PyStr
  patternVal : Option PyStr
  paraText : Option PyStr
  iconTitle : Option PyStr
  dataPrices : Option (List (PyStr × PyStr))
deriving DecidableEq

/-- Price selection of `parse_html`: `parsed_price_json.get("minimum_price")`
followed by `.strip()`; a missing key raises (modelled as `none`). -/
def dexelPriceSelect (prs : List (PyStr × PyStr)) : Option PyStr :=
  (prs.lookup (pystr "minimum_price")).map pyStrip

/-- Size assembly of `parse_html`: whitespace-split the paragraph text and
join the first two tokens with a single space. -/
def dexelSize (t : PyStr) : PyStr := pyJoinSp ((pySplit t).take 2)

/-- The per-card normalization of `DexelScraper.parse_html`: `none` models a
crash of the card extraction (a missing element, attribute or JSON key). -/
def parse_card (c : DexelCard) : Option Observation := do
  let b ← c.brandVal
  let p ← c.patternVal
  let s ← c.paraText
  let i ← c.iconTitle
  let prs ← c.dataPrices
  let mp ← dexelPriceSelect prs
  pure { brand := pyCapitalize (pyStrip b), pattern := pyCapitalize (pyStrip p),
         size := dexelSize s, season := pyCapitalize (pyStrip i), price := mp }

-- The National per-card normalizer (NationalTyreExtractor.extract_data, per tyre div).

/-- The raw pieces `extract_data` reads from one National tyre card; a `none`
field means the attribute / element lookup returned `None`, on which the
Python code raises. -/
structure NationalCard where
  dataBrand : Option PyStr
  patternLinkText : Option PyStr
  siblingText : Option PyStr
  dataSeason : Option PyStr
  dataPrice : Option PyStr
deriving DecidableEq

/-- The per-card normalization of `NationalTyreExtractor.extract_data`:
every field is the raw text stripped of surrounding whitespace; `none`
models a crash of the card extraction. -/
def extract_card (c : NationalCard) : Option Observation := do
  let b ← c.dataBrand
  let p ← c.patternLinkText
  let s ← c.siblingText
  let se ← c.dataSeason
  let pr ← c.dataPrice
  pure { brand := pyStrip b, pattern := pyStrip p, size := pyStrip s,
         season := pyStrip se, price := pyStrip pr }

-- Helper lemmas about emptiness of cleaned-up strings.

theorem pyCapitalize_ne_nil (l : PyStr) (h : l ≠ []) : pyCapitalize l ≠ [] := by
  cases l with
  | nil => exact absurd rfl h
  | cons c cs => simp [pyCapitalize]

theorem pySplit_tokens_ne_nil (s : PyStr) : ∀ t ∈ pySplit s, t ≠ [] := by
  intro t ht
  unfold pySplit at ht
  have := List.mem_filter.mp ht
  simpa using this.2

theorem pyJoinSp_ne_nil (t : PyStr) (ts : List PyStr) (h : t ≠ []) :
    pyJoinSp (t :: ts) ≠ [] := by
  cases ts with
  | nil => simpa [pyJoinSp] using h
  | cons y ys => simp [pyJoinSp]

theorem dexelSize_ne_nil (s : PyStr) (h : pySplit s ≠ []) : dexelSize s ≠ [] := by
  unfold dexelSize
  rcases heq : pySplit s with _ | ⟨t, ts⟩
  · exact absurd heq h
  · have ht : t ≠ [] := pySplit_tokens_ne_nil s t (heq ▸ List.mem_cons_self t ts)
    simpa [List.take] using pyJoinSp_ne_nil t (ts.take 1) ht

/-- C9 (implicit): `add_to_database` appends exactly one row holding every
argument verbatim except the season, which is persisted lowercased; the
lowercased season contains no uppercase letter, so the all-lowercase
seasonality invariant is preserved by every insert, and the normalized
season `'Winter'` is persisted as `'winter'`. -/
theorem add_to_database_lowercases_season
    (website : PyStr) (store : List TyreRow)
    (brand pattern size season price : PyStr) :
    add_to_database website store brand pattern size season price =
      store ++ [{ website_name := website, tyre_brand := brand,
                  tyre_pattern := pattern, tyre_size := size,
                  seasonality := pyLower season, price := price }] ∧
    noUpper (pyLower season) ∧
    (storeSeasonLower store →
      storeSeasonLower
        (add_to_database website store brand pattern size season price)) ∧
    pyLower (pystr "Winter") = pystr "winter" := by
  refine ⟨rfl, ?_, ?_, by decide⟩
  · intro c hc
    simp only [pyLower, List.mem_map] at hc
    obtain ⟨d, _, rfl⟩ := hc
    unfold pyToLowerChar
    split <;> omega
  · intro hinv r hr
    simp only [add_to_database, List.mem_append, List.mem_singleton] at hr
    rcases hr with hr | rfl
    · exact hinv r hr
    · intro c hc
      simp only [pyLower, List.mem_map] at hc
      obtain ⟨d, _, rfl⟩ := hc
      unfold pyToLowerChar
      split <;> omega

/-- Witness for C9: a concrete insert into an empty store keeps the
all-lowercase seasonality invariant, and `'Winter'` is stored as `'winter'`. -/
theorem add_to_database_lowercases_season_witness :
    storeSeasonLower
      (add_to_database (pystr "Dexel") [] (pystr "Goodyear") (pystr "Eagle")
        (pystr "205/55 R16") (pystr "Winter") (pystr "120.00")) ∧
    pyLower (pystr "Winter") = pystr "winter" :=
  ⟨(add_to_database_lowercases_season (pystr "Dexel") [] (pystr "Goodyear")
      (pystr "Eagle") (pystr "205/55 R16") (pystr "Winter")
      (pystr "120.00")).2.2.1 (by intro r hr; simp at hr),
   (add_to_database_lowercases_season (pystr "Dexel") [] (pystr "Goodyear")
      (pystr "Eagle") (pystr "205/55 R16") (pystr "Winter")
      (pystr "120.00")).2.2.2⟩

-- C2: emptiness of required Observation fields.

/-- A Dexel card whose brand input carries a whitespace-only `value`:
every element is present, so nothing crashes, and the card is recorded
with an empty brand. -/
def dexelEmptyBrandCard : DexelCard :=
  { brandVal := some (pystr " "), patternVal := some (pystr "Eagle F1"),
    paraText := some (pystr "205/55 R16 91V"), iconTitle := some (pystr "winter"),
    dataPrices := some [(pystr "minimum_price", pystr "120.00")] }

/-- A National card whose `data-price` attribute is present but empty. -/
def nationalEmptyPriceCard : NationalCard :=
  { dataBrand := some (pystr "Goodyear"), patternLinkText := some (pystr "Eagle F1"),
    siblingText := some (pystr "205/55 R16 91V"), dataSeason := some (pystr "Winter"),
    dataPrice := some (pystr "") }

/-- Counterexample to C2: both normalizers happily record a partial row.
A Dexel card whose brand `value` is whitespace-only is normalized
successfully to an Observation with an empty brand, and a National card
with an empty `data-price` is normalized successfully to an Observation
with an empty price — neither is treated as a normalization failure. -/
theorem normalizer_empty_field_counterexample :
    (parse_card dexelEmptyBrandCard).map Observation.brand = some [] ∧
    (parse_card dexelEmptyBrandCard).isSome = true ∧
    (extract_card nationalEmptyPriceCard).map Observation.price = some [] ∧
    (extract_card nationalEmptyPriceCard).isSome = true := by decide

/-- C2 (amended): a card from which brand, size or price cannot be
recovered at all (a missing element, attribute or JSON key) is a
normalization failure producing no Observation, on both sources; when
normalization succeeds, brand/size/price are obtained from the raw texts
by the trim/capitalize/join cleanup and are nonempty whenever the
corresponding raw text is nonempty after trimming — but a
present-yet-whitespace-only raw value is recorded as an empty string. -/
theorem normalizer_required_fields :
    (∀ c : DexelCard,
      (c.brandVal = none ∨ c.patternVal = none ∨ c.paraText = none ∨
       c.iconTitle = none ∨ c.dataPrices = none) → parse_card c = none) ∧
    (∀ (c : DexelCard) (prs : List (PyStr × PyStr)), c.dataPrices = some prs →
      prs.lookup (pystr "minimum_price") = none → parse_card c = none) ∧
    (∀ (c : DexelCard) (o : Observation) (b s : PyStr)
       (prs : List (PyStr × PyStr)) (mp : PyStr),
      parse_card c = some o → c.brandVal = some b → c.paraText = some s →
      c.dataPrices = some prs → prs.lookup (pystr "minimum_price") = some mp →
      o.brand = pyCapitalize (pyStrip b) ∧ o.size = dexelSize s ∧
      o.price = pyStrip mp ∧
      (pyStrip b ≠ [] → o.brand ≠ []) ∧ (pySplit s ≠ [] → o.size ≠ []) ∧
      (pyStrip mp ≠ [] → o.price ≠ [])) ∧
    (∀ c : NationalCard,
      (c.dataBrand = none ∨ c.patternLinkText = none ∨ c.siblingText = none ∨
       c.dataSeason = none ∨ c.dataPrice = none) → extract_card c = none) ∧
    (∀ (c : NationalCard) (o : Observation) (b s p : PyStr),
      extract_card c = some o → c.dataBrand = some b → c.siblingText = some s →
      c.dataPrice = some p →
      o.brand = pyStrip b ∧ o.size = pyStrip s ∧ o.price = pyStrip p ∧
      (pyStrip b ≠ [] → o.brand ≠ []) ∧ (pyStrip s ≠ [] → o.size ≠ []) ∧
      (pyStrip p ≠ [] → o.price ≠ [])) := by
  refine ⟨?_, ?_, ?_, ?_, ?_⟩
  · rintro ⟨bv, pv, pt, it, dp⟩ h
    rcases h with h | h | h | h | h <;> simp at h <;> subst h <;>
      simp [parse_card]
  · rintro ⟨bv, pv, pt, it, dp⟩ prs hdp hlook
    simp at hdp
    subst hdp
    rcases bv with _ | b <;> rcases pv with _ | p <;> rcases pt with _ | s <;>
      rcases it with _ | i <;> simp [parse_card, dexelPriceSelect, hlook]
  · rintro ⟨bv, pv, pt, it, dp⟩ o b s prs mp hparse hb hs hdp hlook
    simp at hb hs hdp
    subst hb
    subst hs
    subst hdp
    rcases pv with _ | p <;> rcases it with _ | i <;>
      simp [parse_card, dexelPriceSelect, hlook] at hparse
    obtain rfl := hparse.symm
    refine ⟨rfl, rfl, rfl, ?_, ?_, ?_⟩
    · exact fun h => pyCapitalize_ne_nil _ h
    · exact fun h => dexelSize_ne_nil _ h
    · exact fun h => h
  · rintro ⟨db, pl, st, ds, dp⟩ h
    rcases h with h | h | h | h | h <;> simp at h <;> subst h <;>
      simp [extract_card]
  · rintro ⟨db, pl, st, ds, dp⟩ o b s p hparse hb hs hp
    simp at hb hs hp
    subst hb
    subst hs
    subst hp
    rcases pl with _ | pat <;> rcases ds with _ | se <;>
      simp [extract_card] at hparse
    obtain rfl := hparse.symm
    exact ⟨rfl, rfl, rfl, fun h => h, fun h => h, fun h => h⟩

/-- Witness for C2 (amended): a Dexel card with every element missing is a
normalization failure, and a concrete fully-populated Dexel card yields a
nonempty brand. -/
theorem normalizer_required_fields_witness :
    parse_card { brandVal := none, patternVal := none, paraText := none,
                 iconTitle := none, dataPrices := none } = none ∧
    Observation.brand { brand := pystr "Goodyear", pattern := pystr "Eagle f1",
                        size := pystr "205/55 R16", season := pystr "Vinterdäck",
                        price := pystr "120.00" } ≠ [] := by
  constructor
  · exact normalizer_required_fields.1 _ (Or.inl rfl)
  · have h := normalizer_required_fields.2.2.1
      { brandVal := some (pystr " goodyear "), patternVal := some (pystr "Eagle F1"),
        paraText := some (pystr "205/55 R16 91V"),
        iconTitle := some (pystr "Vinterdäck"),
        dataPrices := some [(pystr "minimum_price", pystr " 120.00 ")] }
      { brand := pystr "Goodyear", pattern := pystr "Eagle f1",
        size := pystr "205/55 R16", season := pystr "Vinterdäck",
        price := pystr "120.00" }
      (pystr " goodyear ") (pystr "205/55 R16 91V")
      [(pystr "minimum_price", pystr " 120.00 ")] (pystr " 120.00 ")
      (by decide) rfl rfl rfl (by decide)
    exact h.2.2.2.1 (by decide)

-- C4: price selection from the data-prices payload.

/-- ASCII digit test. -/
def pyIsDigit (c : Nat) : Bool := 48 ≤ c && c ≤ 57

/-- Numeric value of a digit string (most significant first). -/
def natOfDigits (s : PyStr) : Nat := s.foldl (fun a c => a * 10 + (c - 48)) 0

/-- Modelled from the spec: the numeric reading of an advertised decimal
price string such as `"120.00"`, as a scaled integer together with its
scale (number of fraction digits); used only to state which tier is the
minimum advertised price. -/
def decVal (s : PyStr) : Option (Nat × Nat) :=
  match s.splitOn 46 with
  | [a] => if !a.isEmpty && a.all pyIsDigit then some (natOfDigits a, 0) else none
  | [a, b] =>
      if (!a.isEmpty || !b.isEmpty) && a.all pyIsDigit && b.all pyIsDigit then
        some (natOfDigits a * 10 ^ b.length + natOfDigits b, b.length)
      else none
  | _ => none

/-- Modelled from the spec: numeric comparison of two advertised decimal
price strings (false when either fails to parse). -/
def decValLE (a b : PyStr) : Bool :=
  match decVal a, decVal b with
  | some (n₁, k₁), some (n₂, k₂) => n₁ * 10 ^ k₂ ≤ n₂ * 10 ^ k₁
  | _, _ => false

/-- A Dexel pricing payload whose `minimum_price` tier is NOT the numeric
minimum of the advertised tiers. -/
def skewedPrices : List (PyStr × PyStr) :=
  [(pystr "minimum_price", pystr "150.00"), (pystr "sale_tier", pystr "120.00")]

/-- A fully populated Dexel card carrying the skewed pricing payload. -/
def dexelSkewedPriceCard : DexelCard :=
  { brandVal := some (pystr "Goodyear"), patternVal := some (pystr "Eagle F1"),
    paraText := some (pystr "205/55 R16 91V"), iconTitle := some (pystr "Winter"),
    dataPrices := some skewedPrices }

/-- Counterexample to C4: the normalizer picks the value stored under the
`"minimum_price"` key, not the minimum among the tiers: on a payload where
another tier (`"sale_tier"`, 120.00) is cheaper than the `minimum_price`
tier (150.00), the recorded price is still `"150.00"`. -/
theorem minimum_price_counterexample :
    (parse_card dexelSkewedPriceCard).map Observation.price =
      some (pystr "150.00") ∧
    (pystr "sale_tier", pystr "120.00") ∈ skewedPrices ∧
    decValLE (pystr "150.00") (pystr "120.00") = false ∧
    decValLE (pystr "120.00") (pystr "150.00") = true := by decide

/-- A fully populated Dexel card carrying the spec's example payload
`{"minimum_price": "120.00", "other_tier": "150.00"}`. -/
def dexelSpecPayloadCard : DexelCard :=
  { brandVal := some (pystr "Goodyear"), patternVal := some (pystr "Eagle F1"),
    paraText := some (pystr "205/55 R16 91V"), iconTitle := some (pystr "Winter"),
    dataPrices := some [(pystr "minimum_price", pystr "120.00"),
                        (pystr "other_tier", pystr "150.00")] }

/-- C4 (amended): the normalizer selects the value stored under the
`"minimum_price"` key of the pricing payload (the tier the site advertises
as its minimum, never a personalized tier looked up by context), stripped;
in particular, for the payload `{"minimum_price": "120.00",
"other_tier": "150.00"}` it selects `"120.00"`, which on that payload is
also the numeric minimum of the tiers. -/
theorem minimum_price_key_selection :
    (∀ (c : DexelCard) (o : Observation) (prs : List (PyStr × PyStr)) (v : PyStr),
      parse_card c = some o → c.dataPrices = some prs →
      prs.lookup (pystr "minimum_price") = some v → o.price = pyStrip v) ∧
    dexelPriceSelect [(pystr "minimum_price", pystr "120.00"),
                      (pystr "other_tier", pystr "150.00")] =
      some (pystr "120.00") ∧
    decValLE (pystr "120.00") (pystr "120.00") = true ∧
    decValLE (pystr "120.00") (pystr "150.00") = true := by
  refine ⟨?_, by decide, by decide, by decide⟩
  rintro ⟨bv, pv, pt, it, dp⟩ o prs v hparse hdp hlook
  simp at hdp
  subst hdp
  rcases bv with _ | b <;> rcases pv with _ | p <;> rcases pt with _ | s <;>
    rcases it with _ | i <;>
    simp [parse_card, dexelPriceSelect, hlook] at hparse
  obtain rfl := hparse.symm
  rfl

/-- Witness for C4 (amended): on the spec's example payload the recorded
price is the stripped value of the `minimum_price` key, `"120.00"`. -/
theorem minimum_price_key_selection_witness :
    Observation.price { brand := pystr "Goodyear", pattern := pystr "Eagle f1",
                        size := pystr "205/55 R16", season := pystr "Winter",
                        price := pystr "120.00" } = pyStrip (pystr "120.00") :=
  minimum_price_key_selection.1 dexelSpecPayloadCard
    { brand := pystr "Goodyear", pattern := pystr "Eagle f1",
      size := pystr "205/55 R16", season := pystr "Winter",
      price := pystr "120.00" }
    [(pystr "minimum_price", pystr "120.00"), (pystr "other_tier", pystr "150.00")]
    (pystr "120.00") (by decide) rfl (by decide)

-- C5: case conversion of brand and pattern strings.

/-- ASCII letter test. -/
def pyIsAlpha (c : Nat) : Bool := (65 ≤ c && c ≤ 90) || (97 ≤ c && c ≤ 122)

/-- Helper for `pyTitleSpec`: the Boolean records whether the previous
character was a letter. -/
def pyTitleAux : Bool → PyStr → PyStr
  | _, [] => []
  | prevAlpha, c :: cs =>
      (if pyIsAlpha c then
        (if prevAlpha then pyToLowerChar c else pyToUpperChar c)
       else c) :: pyTitleAux (pyIsAlpha c) cs

/-- Modelled from the spec: title case, "each word capitalized"
(Python `str.title()` semantics), used only to compare the code's actual
cleanup against the spec's wording. -/
def pyTitleSpec (s : PyStr) : PyStr := pyTitleAux false s

/-- A Dexel card whose brand value is two lowercase words. -/
def dexelLowercaseBrandCard : DexelCard :=
  { brandVal := some (pystr " goodyear eagle "), patternVal := some (pystr "ultra grip"),
    paraText := some (pystr "205/55 R16 91V"), iconTitle := some (pystr "Winter"),
    dataPrices := some [(pystr "minimum_price", pystr "120.00")] }

/-- A National card whose brand attribute is a lowercase word. -/
def nationalLowercaseBrandCard : NationalCard :=
  { dataBrand := some (pystr "goodyear"), patternLinkText := some (pystr "eagle f1"),
    siblingText := some (pystr "205/55 R16 91V"), dataSeason := some (pystr "Winter"),
    dataPrice := some (pystr "120.00") }

/-- Counterexample to C5: neither source title-cases brand/pattern.
Dexel capitalizes only the first character and lowercases the rest, so
` goodyear eagle ` becomes `Goodyear eagle`, not the title case
`Goodyear Eagle`; National strips only, so `goodyear` stays `goodyear`,
not `Goodyear`. -/
theorem brand_titlecase_counterexample :
    (parse_card dexelLowercaseBrandCard).map Observation.brand =
      some (pystr "Goodyear eagle") ∧
    pyTitleSpec (pyStrip (pystr " goodyear eagle ")) = pystr "Goodyear Eagle" ∧
    pystr "Goodyear eagle" ≠ pystr "Goodyear Eagle" ∧
    (extract_card nationalLowercaseBrandCard).map Observation.brand =
      some (pystr "goodyear") ∧
    pyTitleSpec (pyStrip (pystr "goodyear")) = pystr "Goodyear" ∧
    pystr "goodyear" ≠ pystr "Goodyear" := by decide

/-- C5 (amended): on Dexel, brand and pattern are the raw text stripped of
surrounding whitespace and Python-capitalized — the first character is
uppercased and every remaining character lowercased, so only the first
word is capitalized; on National, brand and pattern are stripped only,
with the original casing preserved. -/
theorem brand_pattern_cleanup :
    (∀ (c : DexelCard) (o : Observation) (b p : PyStr),
      parse_card c = some o → c.brandVal = some b → c.patternVal = some p →
      o.brand = pyCapitalize (pyStrip b) ∧ o.pattern = pyCapitalize (pyStrip p)) ∧
    (∀ (c : NationalCard) (o : Observation) (b p : PyStr),
      extract_card c = some o → c.dataBrand = some b → c.patternLinkText = some p →
      o.brand = pyStrip b ∧ o.pattern = pyStrip p) ∧
    (∀ l : PyStr, (pyCapitalize l).head? = l.head?.map pyToUpperChar ∧
      (pyCapitalize l).tail = l.tail.map pyToLowerChar) := by
  refine ⟨?_, ?_, ?_⟩
  · rintro ⟨bv, pv, pt, it, dp⟩ o b p hparse hb hp
    simp at hb hp
    subst hb
    subst hp
    rcases pt with _ | s <;> rcases it with _ | i <;> rcases dp with _ | prs <;>
      simp [parse_card] at hparse
    rcases hmp : dexelPriceSelect prs with _ | mp
    · rw [hmp] at hparse
      simp at hparse
    · rw [hmp] at hparse
      simp at hparse
      obtain rfl := hparse.symm
      exact ⟨rfl, rfl⟩
  · rintro ⟨db, pl, st, ds, dp⟩ o b p hparse hb hp
    simp at hb hp
    subst hb
    subst hp
    rcases st with _ | s <;> rcases ds with _ | se <;> rcases dp with _ | pr <;>
      simp [extract_card] at hparse
    obtain rfl := hparse.symm
    exact ⟨rfl, rfl⟩
  · intro l
    cases l <;> simp [pyCapitalize]

/-- Witness for C5 (amended): on a concrete Dexel card the recorded brand
is the capitalize-of-strip of the raw value, and on a concrete National
card the recorded brand is the bare strip of the raw attribute. -/
theorem brand_pattern_cleanup_witness :
    Observation.brand { brand := pystr "Goodyear eagle", pattern := pystr "Ultra grip",
                        size := pystr "205/55 R16", season := pystr "Winter",
                        price := pystr "120.00" } =
      pyCapitalize (pyStrip (pystr " goodyear eagle ")) ∧
    Observation.brand { brand := pystr "goodyear", pattern := pystr "eagle f1",
                        size := pystr "205/55 R16 91V", season := pystr "Winter",
                        price := pystr "120.00" } = pyStrip (pystr "goodyear") :=
  ⟨(brand_pattern_cleanup.1 dexelLowercaseBrandCard
      { brand := pystr "Goodyear eagle", pattern := pystr "Ultra grip",
        size := pystr "205/55 R16", season := pystr "Winter",
        price := pystr "120.00" }
      (pystr " goodyear eagle ") (pystr "ultra grip") (by decide) rfl rfl).1,
   (brand_pattern_cleanup.2.1 nationalLowercaseBrandCard
      { brand := pystr "goodyear", pattern := pystr "eagle f1",
        size := pystr "205/55 R16 91V", season := pystr "Winter",
        price := pystr "120.00" }
      (pystr "goodyear") (pystr "eagle f1") (by decide) rfl rfl).1⟩

-- C6: postcode discovery of the National scraper.

/-- Postcode normalization of `find_branch_postcodes`: strip surrounding
whitespace, then remove every remaining space character. -/
def normalizePostcode (s : PyStr) : PyStr := pyRemoveSpaces (pyStrip s)

/-- `NationalTyreExtractor.find_branch_postcodes`, modelled on the raw
postcode texts read from the branch detail pages (one per branch link, in
page order); the final `list(set(postcodes_list))` is modelled as the
canonical duplicate-free list of the normalized postcodes. -/
def find_branch_postcodes (raws : List PyStr) : List PyStr :=
  (raws.map normalizePostcode).dedup

/-- The phases `NationalTyreExtractor.scrape` runs, in statement order. -/
inductive NatScrapePhase where
  | discovery
  | persistPostcodes (pcs : List PyStr)
  | extraction (pcs : List PyStr)
deriving DecidableEq

/-- `NationalTyreExtractor.scrape`: discovery, then the dump of the
discovered postcode list to `postcodes.json`, then extraction over exactly
that list. -/
def national_scrape_phases (raws : List PyStr) : List NatScrapePhase :=
  [.discovery, .persistPostcodes (find_branch_postcodes raws),
   .extraction (find_branch_postcodes raws)]

/-- C6: postcode discovery returns a duplicate-free collection; a postcode
is in the result exactly when some branch page's raw text normalizes
(strip + space removal) to it, independent of order and multiplicity; for
raw texts normalizing to P, P, P, Q with P ≠ Q the result has exactly two
elements; and the scrape persists exactly the discovered distinct set
(position 1) strictly before extraction begins (position 2). -/
theorem find_branch_postcodes_distinct (raws : List PyStr) :
    (find_branch_postcodes raws).Nodup ∧
    (∀ p, p ∈ find_branch_postcodes raws ↔
      ∃ r ∈ raws, normalizePostcode r = p) ∧
    (∀ r₁ r₂ : PyStr, normalizePostcode r₁ ≠ normalizePostcode r₂ →
      (find_branch_postcodes [r₁, r₁, r₁, r₂]).length = 2) ∧
    (national_scrape_phases raws).get? 1 =
      some (.persistPostcodes (find_branch_postcodes raws)) ∧
    (national_scrape_phases raws).get? 2 =
      some (.extraction (find_branch_postcodes raws)) := by
  refine ⟨List.nodup_dedup _, ?_, ?_, rfl, rfl⟩
  · intro p
    rw [find_branch_postcodes, List.mem_dedup, List.mem_map]
  · intro r₁ r₂ h
    simp only [find_branch_postcodes, List.map_cons, List.map_nil]
    rw [List.dedup_cons_of_mem (by simp), List.dedup_cons_of_mem (by simp),
      List.dedup_cons_of_not_mem (by simp [h])]
    simp

/-- Witness for C6: a concrete discovery run over three branch pages whose
postcodes normalize to two distinct values yields a duplicate-free set of
exactly two postcodes. -/
theorem find_branch_postcodes_distinct_witness :
    (find_branch_postcodes
      [pystr "AB1 2CD", pystr " AB12CD ", pystr "ZZ9 9ZZ"]).Nodup ∧
    (find_branch_postcodes [pystr "AB1 2CD", pystr "AB1 2CD", pystr "AB1 2CD",
                            pystr "ZZ9 9ZZ"]).length = 2 :=
  ⟨(find_branch_postcodes_distinct
      [pystr "AB1 2CD", pystr " AB12CD ", pystr "ZZ9 9ZZ"]).1,
   (find_branch_postcodes_distinct []).2.2.1 (pystr "AB1 2CD") (pystr "ZZ9 9ZZ")
      (by decide)⟩

-- The rate-limited fetcher, at the timing level (C10 and C3).

/-- Throttling state of a `TyreScraper`: the monotonic-clock timestamp of
the last completed request, `none` before any request. -/
structure FetcherState where
  last_request_time : Option ℚ
deriving DecidableEq

/-- `TyreScraper.fetch_html` at the timing level: issued at `issue`, the
request completes at `issue + dur`; `last_request_time` is set to the
completion time BEFORE `raise_for_status()` runs, hence regardless of the
success flag. Returns (new state, completion time, success). -/
def fetch_html (st : FetcherState) (issue dur : ℚ) (ok : Bool) :
    FetcherState × ℚ × Bool :=
  ({ last_request_time := some (issue + dur) }, issue + dur, ok)

/-- The moment `fetch_html_timed`, called at `now`, actually issues its
request: if a previous request completed at `t0` and `now - t0 ≤ 1`, it
sleeps `1 - (now - t0)` first; with no previous request it issues at once. -/
def timed_issue (st : FetcherState) (now : ℚ) : ℚ :=
  match st.last_request_time with
  | none => now
  | some t0 => if now - t0 ≤ 1 then now + (1 - (now - t0)) else now

/-- `TyreScraper.fetch_html_timed` at the timing level. -/
def fetch_html_timed (st : FetcherState) (now dur : ℚ) (ok : Bool) :
    FetcherState × ℚ × Bool :=
  fetch_html st (timed_issue st now) dur ok

/-- C10 (implicit): a failed fetch still updates `last_request_time` to its
completion time (the assignment precedes the status check, and is not
rolled back on the raise), and a subsequent `fetch_html_timed` call made
within one time-unit of the failed completion waits out the remainder of
the interval measured from that failed completion: it issues at `t + 1`
and completes at `t + 1 + dur2`. -/
theorem fetch_html_updates_timestamp_on_error
    (st : FetcherState) (issue dur now dur2 : ℚ) (ok2 : Bool)
    (hlt : now - (issue + dur) ≤ 1) :
    (fetch_html st issue dur false).1.last_request_time = some (issue + dur) ∧
    (fetch_html st issue dur false).2.2 = false ∧
    timed_issue (fetch_html st issue dur false).1 now = (issue + dur) + 1 ∧
    (fetch_html_timed (fetch_html st issue dur false).1 now dur2 ok2).2.1 =
      (issue + dur) + 1 + dur2 := by
  have hti : timed_issue (fetch_html st issue dur false).1 now = (issue + dur) + 1 := by
    simp only [fetch_html, timed_issue, if_pos hlt]
    ring
  refine ⟨rfl, rfl, hti, ?_⟩
  show timed_issue (fetch_html st issue dur false).1 now + dur2 =
    issue + dur + 1 + dur2
  rw [hti]

/-- Witness for C10: starting from a fresh fetcher, a fetch failing at
time 0 records the timestamp, and a timed call made at time 1/2 issues at
time 1. -/
theorem fetch_html_updates_timestamp_on_error_witness :
    (fetch_html ⟨none⟩ 0 0 false).1.last_request_time = some (0 + 0) ∧
    (fetch_html ⟨none⟩ 0 0 false).2.2 = false ∧
    timed_issue (fetch_html ⟨none⟩ 0 0 false).1 (1 / 2) = (0 + 0) + 1 ∧
    (fetch_html_timed (fetch_html ⟨none⟩ 0 0 false).1 (1 / 2) 0 true).2.1 =
      (0 + 0) + 1 + 0 :=
  fetch_html_updates_timestamp_on_error ⟨none⟩ 0 0 (1 / 2) 0 true (by norm_num)

-- C3: which fetch path the site-B engine actually uses.

/-- Which of the two fetch entry points a call site invokes. -/
inductive FetchKind where
  | plain
  | timed
deriving DecidableEq

/-- The fetch calls `find_branch_postcodes` makes, in order: the branch
directory page, then one call per branch detail link — every one through
the raw `fetch_html` (never `fetch_html_timed`). -/
def find_branch_postcodes_calls (branchLinks : List PyStr) : List FetchKind :=
  .plain :: branchLinks.map (fun _ => .plain)

/-- The fetch calls `extract_data` makes: one templated search page per
(postcode, size input) pair, through the raw `fetch_html`. -/
def extract_data_calls (postcodes : List PyStr)
    (inputs : List (Nat × Nat × Nat)) : List FetchKind :=
  postcodes.flatMap (fun _ => inputs.map (fun _ => .plain))

/-- The fetch calls of `NationalTyreExtractor.scrape`: discovery over the
branch links (whose detail pages carry the raw postcode texts `raws`),
then extraction over the discovered distinct postcode set. -/
def national_scrape_calls (branchLinks raws : List PyStr)
    (inputs : List (Nat × Nat × Nat)) : List FetchKind :=
  find_branch_postcodes_calls branchLinks ++
    extract_data_calls (find_branch_postcodes raws) inputs

/-- Runs a list of fetch calls with the given response durations: the
engine reaches each call the moment the previous one completes; a `plain`
call goes through `fetch_html`, a `timed` one through `fetch_html_timed`.
Returns the completion times in order. -/
def runCalls : FetcherState → ℚ → List (FetchKind × ℚ) → List ℚ
  | _, _, [] => []
  | st, now, (FetchKind.plain, d) :: rest =>
      (fetch_html st now d true).2.1 ::
        runCalls (fetch_html st now d true).1 (fetch_html st now d true).2.1 rest
  | st, now, (FetchKind.timed, d) :: rest =>
      (fetch_html_timed st now d true).2.1 ::
        runCalls (fetch_html_timed st now d true).1
          (fetch_html_timed st now d true).2.1 rest

/-- Completions of back-to-back unthrottled requests: the running sums of
the response durations. -/
def cumSums (now : ℚ) : List ℚ → List ℚ
  | [] => []
  | d :: ds => (now + d) :: cumSums (now + d) ds

/-- Consecutive completions at least one time-unit apart. -/
def gapsAtLeastOne (l : List ℚ) : Prop :=
  List.Chain' (fun a b => a + 1 ≤ b) l

/-- Counterexample to C3: the site-B engine's fetches do NOT all go
through the rate-limited path, and its completion gaps can be under one
time-unit. On a run with one branch link and one (postcode, size) pair,
all three fetches are raw `fetch_html` calls, and with instantaneous
responses (duration 0, start at 0) all three completions coincide at
time 0. -/
theorem rate_limited_fetch_counterexample :
    national_scrape_calls [pystr "/branch1"] [pystr "AB1 2CD"] [(205, 55, 16)] =
      [.plain, .plain, .plain] ∧
    ¬ gapsAtLeastOne (runCalls ⟨none⟩ 0
        ((national_scrape_calls [pystr "/branch1"] [pystr "AB1 2CD"]
          [(205, 55, 16)]).map (fun k => (k, (0 : ℚ))))) := by
  have hcalls : national_scrape_calls [pystr "/branch1"] [pystr "AB1 2CD"]
      [(205, 55, 16)] = [.plain, .plain, .plain] := by decide
  refine ⟨hcalls, ?_⟩
  rw [hcalls]
  norm_num [gapsAtLeastOne, runCalls, fetch_html, List.chain'_cons]

/-- C3 (amended): every HTTP fetch the site-B engine issues — the branch
directory page, each branch detail page during postcode discovery, and
each templated search page during extraction — goes through the raw
`fetch_html` path, and `fetch_html_timed` is never invoked by the engine;
therefore each request is issued the moment the engine reaches it and the
completion times are just the running sums of the response durations, with
no enforced 1-unit gap. The unused timed path would have enforced it: a
timed call made within one unit of a previous completion `t0` completes
no earlier than `t0 + 1`. -/
theorem national_fetches_unthrottled :
    (∀ (branchLinks raws : List PyStr) (inputs : List (Nat × Nat × Nat)),
      ∀ k ∈ national_scrape_calls branchLinks raws inputs,
        k = FetchKind.plain) ∧
    (∀ (kinds : List FetchKind) (ds : List ℚ) (st : FetcherState) (now : ℚ),
      (∀ k ∈ kinds, k = FetchKind.plain) →
      runCalls st now (kinds.zip ds) = cumSums now (ds.take kinds.length)) ∧
    (∀ (st : FetcherState) (t0 now dur : ℚ) (ok : Bool),
      st.last_request_time = some t0 → now - t0 ≤ 1 → 0 ≤ dur →
      t0 + 1 ≤ (fetch_html_timed st now dur ok).2.1) := by
  refine ⟨?_, ?_, ?_⟩
  · intro bl raws ins k hk
    simp only [national_scrape_calls, find_branch_postcodes_calls,
      extract_data_calls, List.mem_append, List.mem_cons, List.mem_flatMap,
      List.mem_map] at hk
    rcases hk with (rfl | ⟨_, _, rfl⟩) | ⟨_, _, _, _, rfl⟩ <;> rfl
  · intro kinds
    induction kinds with
    | nil => intro ds st now _; cases ds <;> rfl
    | cons k ks ih =>
        intro ds st now h
        cases ds with
        | nil => rfl
        | cons d ds' =>
            have hk : k = FetchKind.plain := h k (List.mem_cons_self k ks)
            subst hk
            show (now + d) :: runCalls ⟨some (now + d)⟩ (now + d) (ks.zip ds') =
              (now + d) :: cumSums (now + d) (ds'.take ks.length)
            exact congrArg _
              (ih ds' ⟨some (now + d)⟩ (now + d)
                (fun k' hk' => h k' (List.mem_cons_of_mem _ hk')))
  · intro st t0 now dur ok hlast hle hdur
    show t0 + 1 ≤ timed_issue st now + dur
    simp only [timed_issue, hlast, if_pos hle]
    linarith

/-- Witness for C3 (amended): in a concrete run, the single discovery
fetch is a raw call, a single raw call of duration 5 completes at time 5,
and a timed call half a unit after a completion at 0 completes at 1. -/
theorem national_fetches_unthrottled_witness :
    FetchKind.plain = FetchKind.plain ∧
    runCalls ⟨none⟩ 0 ([FetchKind.plain].zip [(5 : ℚ)]) =
      cumSums 0 [(5 : ℚ)] ∧
    (0 : ℚ) + 1 ≤ (fetch_html_timed ⟨some 0⟩ (1 / 2) 0 true).2.1 :=
  ⟨national_fetches_unthrottled.1 [pystr "/branch1"] [pystr "AB1 2CD"]
      [(205, 55, 16)] FetchKind.plain (by decide),
   national_fetches_unthrottled.2.1 [FetchKind.plain] [5] ⟨none⟩ 0
      (by intro k hk; simpa using hk),
   national_fetches_unthrottled.2.2 ⟨some 0⟩ 0 (1 / 2) 0 true rfl
      (by norm_num) (by norm_num)⟩

-- C1: the pagination loop of DexelScraper.scrape_branch.

/-- The pagination footer (`div.custom-pagination`) as the loop reads it:
the text contents of its `a` tags and the `class` attributes of its `li`
tags, in document order. -/
structure Footer where
  links : List PyStr
  lis : List (Option PyStr)

/-- What one iteration of the loop decides after parsing the page. -/
inductive PgAction where
  | stop
  | click (idx : Int)
deriving DecidableEq

/-- The three-way pagination branch of `scrape_branch`, as coded: zero
links → stop (the one-page / zero-results case, logged, not an error);
else if the stripped text of the last link contains `'Last'` → click link
number N−2 (the second-to-last link); else if the last `li`'s class is
exactly `'active'` → stop; else → click the last link (number N−1).
`none` models the crash when the footer has links but no `li` elements. -/
def nextAction (f : Footer) : Option PgAction :=
  if f.links.length = 0 then some .stop
  else if pyContains (pyStrip (f.links.getLastD [])) (pystr "Last") then
    some (.click ((f.links.length : Int) - 2))
  else
    match f.lis.getLast? with
    | none => none
    | some cls =>
        if cls = some (pystr "active") then some .stop
        else some (.click ((f.links.length : Int) - 1))

/-- A site-A result set: `numPages` result pages and the footer rendered
on each; every next-page click advances the browser by one page. -/
structure PagedSite where
  numPages : Nat
  footer : Nat → Footer

/-- The `while True` loop of `scrape_branch` from page `i`: each
iteration hands the current page to `parse_html` exactly once, then runs
the three-way branch; a click advances to page `i + 1`. Returns the pages
parsed, in order; `none` models a crash or running out of fuel (the loop
not terminating within `fuel` iterations). -/
def scrape_branch_loop (site : PagedSite) : Nat → Nat → Option (List Nat)
  | 0, _ => none
  | fuel + 1, i =>
      match nextAction (site.footer i) with
      | none => none
      | some .stop => some [i]
      | some (.click _) => (scrape_branch_loop site fuel (i + 1)).map (i :: ·)

/-- A finite result set rendered consistently: every page before the last
shows a footer the loop reads as a next-page click, and the last page
shows one it reads as a stop. -/
def WellPaginated (site : PagedSite) : Prop :=
  0 < site.numPages ∧
  (∀ i, i + 1 < site.numPages →
    ∃ k, nextAction (site.footer i) = some (.click k)) ∧
  nextAction (site.footer (site.numPages - 1)) = some .stop

theorem scrape_branch_loop_range (site : PagedSite) (h : WellPaginated site) :
    ∀ d i, i + d = site.numPages → d ≠ 0 →
      scrape_branch_loop site d i = some (List.range' i d) := by
  intro d
  induction d with
  | zero => intro i _ hd; exact absurd rfl hd
  | succ d ih =>
      intro i hi _
      by_cases hd : d = 0
      · subst hd
        have hstop : nextAction (site.footer i) = some .stop := by
          have : i = site.numPages - 1 := by omega
          rw [this]
          exact h.2.2
        simp [scrape_branch_loop, hstop, List.range']
      · obtain ⟨k, hk⟩ := h.2.1 i (by omega)
        have htail := ih (i + 1) (by omega) hd
        simp [scrape_branch_loop, hk, htail, List.range']

/-- C1: on a consistently rendered finite result set the pagination loop
of `scrape_branch` parses every page exactly once (pages 0..N−1, each
once, in order) and terminates; and the next action after each parse is
the three-way branch exactly as claimed: zero footer links → stop after
exactly one processed page; else a last link whose stripped text contains
`'Last'` → click link N−2 and continue; else a footer whose last list
item is marked `active` → stop with no further click; else → click the
last link (N−1) and continue. -/
theorem scrape_branch_pagination (site : PagedSite) (h : WellPaginated site) :
    scrape_branch_loop site site.numPages 0 = some (List.range site.numPages) ∧
    (List.range site.numPages).Nodup ∧
    (∀ f : Footer, f.links = [] → nextAction f = some .stop) ∧
    (∀ si : PagedSite, (si.footer 0).links = [] → ∀ fuel, fuel ≠ 0 →
      scrape_branch_loop si fuel 0 = some [0]) ∧
    (∀ f : Footer, f.links ≠ [] →
      pyContains (pyStrip (f.links.getLastD [])) (pystr "Last") = true →
      nextAction f = some (.click ((f.links.length : Int) - 2))) ∧
    (∀ (f : Footer) (cls : Option PyStr), f.links ≠ [] →
      pyContains (pyStrip (f.links.getLastD [])) (pystr "Last") = false →
      f.lis.getLast? = some cls → cls = some (pystr "active") →
      nextAction f = some .stop) ∧
    (∀ (f : Footer) (cls : Option PyStr), f.links ≠ [] →
      pyContains (pyStrip (f.links.getLastD [])) (pystr "Last") = false →
      f.lis.getLast? = some cls → cls ≠ some (pystr "active") →
      nextAction f = some (.click ((f.links.length : Int) - 1))) := by
  refine ⟨?_, List.nodup_range _, ?_, ?_, ?_, ?_, ?_⟩
  · have := scrape_branch_loop_range site h site.numPages 0 (by omega)
      (by have := h.1; omega)
    rwa [List.range_eq_range']
  · intro f hf
    simp [nextAction, hf]
  · intro si hsi fuel hfuel
    have hstop : nextAction (si.footer 0) = some .stop := by
      simp [nextAction, hsi]
    cases fuel with
    | zero => exact absurd rfl hfuel
    | succ n => simp [scrape_branch_loop, hstop]
  · intro f hne hlast
    have hlen : f.links.length ≠ 0 := by simpa using hne
    rw [List.getLastD_eq_getLast?] at hlast
    simp [nextAction, hlen, hlast]
  · intro f cls hne hlast hlis hcls
    have hlen : f.links.length ≠ 0 := by simpa using hne
    rw [List.getLastD_eq_getLast?] at hlast
    simp [nextAction, hlen, hlast, hlis, hcls]
  · intro f cls hne hlast hlis hcls
    have hlen : f.links.length ≠ 0 := by simpa using hne
    rw [List.getLastD_eq_getLast?] at hlast
    simp [nextAction, hlen, hlast, hlis, hcls]

/-- A three-page demonstration site: page 0 still shows the `Last >`
jump; on page 1 the jump has disappeared but the last `li` is not active;
page 2 renders an empty footer. -/
def demoSite : PagedSite :=
  { numPages := 3,
    footer := fun i =>
      if i = 0 then
        { links := [pystr "1", pystr "2", pystr "Last >"],
          lis := [some (pystr "page-item")] }
      else if i = 1 then
        { links := [pystr "1", pystr "2"],
          lis := [some (pystr "page-item"), some (pystr "page-item")] }
      else { links := [], lis := [] } }

/-- Witness for C1: on the three-page demonstration site the loop parses
pages 0, 1, 2 exactly once each and terminates. -/
theorem scrape_branch_pagination_witness :
    scrape_branch_loop demoSite 3 0 = some (List.range 3) := by
  have hwp : WellPaginated demoSite := by
    refine ⟨by norm_num [demoSite], ?_, by decide⟩
    intro i hi
    have h3 : i < 2 := by
      have : demoSite.numPages = 3 := rfl
      omega
    interval_cases i
    · exact ⟨1, by decide⟩
    · exact ⟨1, by decide⟩
  exact (scrape_branch_pagination demoSite hwp).1

-- C7: session isolation of DexelScraper.scrape.

/-- A tyre size query triple (width, aspect ratio, rim size). -/
abbrev Query := Nat × Nat × Nat

/-- Events of a Dexel scraping run, each tagged with the id of the
browser context (isolated session) it happens in. -/
inductive DexelEv where
  | openCtx (sid : Nat)
  | gotoHome (sid : Nat)
  | selectSize (sid : Nat) (q : Query)
  | submitSearch (sid : Nat)
  | selectBranch (sid : Nat) (ordinal : Nat)
  | paginate (sid : Nat)
  | closeCtx (sid : Nat)
deriving DecidableEq

/-- The session an event belongs to. -/
def DexelEv.sid : DexelEv → Nat
  | .openCtx s => s
  | .gotoHome s => s
  | .selectSize s _ => s
  | .submitSearch s => s
  | .selectBranch s _ => s
  | .paginate s => s
  | .closeCtx s => s

/-- `nav_to_branch_page` inside session `sid`: open the home page, set
the three size dropdowns for `q`, submit the search. -/
def nav_to_branch_page (sid : Nat) (q : Query) : List DexelEv :=
  [.gotoHome sid, .selectSize sid q, .submitSearch sid]

/-- `scrape_branch` inside session `sid`: select the branch by its
ordinal, then paginate through the result pages. -/
def scrape_branch_events (sid branch : Nat) : List DexelEv :=
  [.selectBranch sid branch, .paginate sid]

/-- One (branch, size query) pair of `DexelScraper.scrape`: a fresh
context is opened, navigation and size selection are redone from scratch,
the branch is re-selected by the same ordinal, and the context is closed
when the pair is done. -/
def pair_session (sid branch : Nat) (q : Query) : List DexelEv :=
  .openCtx sid :: (nav_to_branch_page sid q ++ scrape_branch_events sid branch)
    ++ [.closeCtx sid]

/-- The session id used for the pair (branch `b`, input number `j`);
id 0 is the disposable probe context that counts branches. -/
def pairSid (numInputs b j : Nat) : Nat := 1 + b * numInputs + j

/-- The event trace of `DexelScraper.scrape`: the probe context runs the
navigation once with the first input to count branches and is closed,
then the two nested loops (branches outer, inputs inner) run one fresh
session per (branch, input) pair; `none` when `inputs` is empty
(`inputs[0]` raises). -/
def dexel_scrape_trace (branchCount : Nat) (inputs : List Query) :
    Option (List DexelEv) :=
  match inputs with
  | [] => none
  | q0 :: _ =>
      some ((DexelEv.openCtx 0 :: nav_to_branch_page 0 q0 ++ [DexelEv.closeCtx 0]) ++
        (List.range branchCount).flatMap (fun b =>
          (List.range inputs.length).flatMap (fun j =>
            pair_session (pairSid inputs.length b j) b
              (inputs.getD j (0, 0, 0)))))

theorem filter_flatMap_eq {α β : Type} (l : List α) (f : α → List β) (p : β → Bool) :
    (l.flatMap f).filter p = l.flatMap fun a => (f a).filter p := by
  induction l with
  | nil => rfl
  | cons a l ih => simp [List.flatMap_cons, List.filter_append, ih]

theorem range_flatMap_single {β : Type} (n x : Nat) (hx : x < n) (f : Nat → List β)
    (h : ∀ y, y < n → y ≠ x → f y = []) : (List.range n).flatMap f = f x := by
  induction n with
  | zero => omega
  | succ n ih =>
      rw [List.range_succ, List.flatMap_append]
      by_cases hxn : x = n
      · subst hxn
        have hnil : (List.range x).flatMap f = [] := by
          rw [List.flatMap_eq_nil_iff]
          intro y hy
          exact h y (by simp at hy; omega) (by simp at hy; omega)
        simp [hnil]
      · have hxlt : x < n := by omega
        rw [ih hxlt (fun y hy hyx => h y (by omega) hyx)]
        have hn : f n = [] := h n (by omega) (by omega)
        simp [hn]

theorem pairSid_inj (len b j b' j' : Nat) (hj : j < len) (hj' : j' < len)
    (h : pairSid len b j = pairSid len b' j') : b = b' ∧ j = j' := by
  unfold pairSid at h
  have h2 : b * len + j = b' * len + j' := by omega
  have hb : b = b' := by
    rcases Nat.lt_trichotomy b b' with hlt | heq | hgt
    · exfalso
      have h1 : b * len + j < (b + 1) * len := by
        rw [Nat.succ_mul]
        omega
      have h3 : (b + 1) * len ≤ b' * len := Nat.mul_le_mul_right len hlt
      omega
    · exact heq
    · exfalso
      have h1 : b' * len + j' < (b' + 1) * len := by
        rw [Nat.succ_mul]
        omega
      have h3 : (b' + 1) * len ≤ b * len := Nat.mul_le_mul_right len hgt
      omega
  subst hb
  refine ⟨rfl, ?_⟩
  have := Nat.add_left_cancel h2
  exact this

theorem pair_session_filter_self (sid b : Nat) (q : Query) :
    (pair_session sid b q).filter (fun e => e.sid == sid) =
      pair_session sid b q := by
  simp [pair_session, nav_to_branch_page, scrape_branch_events, DexelEv.sid]

theorem pair_session_filter_other (sid' sid b : Nat) (q : Query)
    (h : sid' ≠ sid) :
    (pair_session sid' b q).filter (fun e => e.sid == sid) = [] := by
  simp [pair_session, nav_to_branch_page, scrape_branch_events, DexelEv.sid, h]

/-- C7: every (branch ordinal, size query) pair of `DexelScraper.scrape`
gets a browser session of its own: the events tagged with the pair's
session id are exactly one freshly opened context, the full home
navigation and size selection for that pair's query redone from scratch,
the branch selection by the same ordinal `b`, the pagination, and the
context close — in that order and nothing else anywhere in the run; the
pair's session id differs from the probe session (id 0) and from every
other pair's, so no session state carries over from one pair to the
next. -/
theorem dexel_session_isolation (branchCount : Nat) (inputs : List Query)
    (trace : List DexelEv)
    (htr : dexel_scrape_trace branchCount inputs = some trace)
    (b j : Nat) (hb : b < branchCount) (hj : j < inputs.length) :
    trace.filter (fun e => e.sid == pairSid inputs.length b j) =
      pair_session (pairSid inputs.length b j) b (inputs.getD j (0, 0, 0)) ∧
    pairSid inputs.length b j ≠ 0 ∧
    (∀ b' j', b' < branchCount → j' < inputs.length → (b', j') ≠ (b, j) →
      pairSid inputs.length b' j' ≠ pairSid inputs.length b j) := by
  have hsid0 : pairSid inputs.length b j ≠ 0 := by unfold pairSid; omega
  refine ⟨?_, hsid0, ?_⟩
  · cases inputs with
    | nil => simp at hj
    | cons q0 rest =>
        simp only [dexel_scrape_trace] at htr
        have htr' := Option.some.inj htr
        subst htr'
        rw [List.filter_append]
        have hprobe :
            (DexelEv.openCtx 0 :: nav_to_branch_page 0 q0 ++
              [DexelEv.closeCtx 0]).filter
              (fun e => e.sid == pairSid (q0 :: rest).length b j) = [] := by
          have h0 : ¬(0 = pairSid (rest.length + 1) b j) := by
            unfold pairSid; omega
          simp [nav_to_branch_page, DexelEv.sid, h0]
        rw [hprobe, List.nil_append, filter_flatMap_eq]
        refine Eq.trans (range_flatMap_single branchCount b hb _ ?_) ?_
        · intro b' hb' hbne
          rw [filter_flatMap_eq, List.flatMap_eq_nil_iff]
          intro j' hj'
          refine pair_session_filter_other _ _ _ _ ?_
          intro heq
          exact hbne (pairSid_inj _ _ _ _ _ (by simpa using hj') hj heq).1
        · rw [filter_flatMap_eq]
          refine Eq.trans
            (range_flatMap_single (q0 :: rest).length j hj _ ?_) ?_
          · intro j' hj' hjne
            refine pair_session_filter_other _ _ _ _ ?_
            intro heq
            exact hjne (pairSid_inj _ _ _ _ _ hj' hj heq).2
          · exact pair_session_filter_self _ _ _
  · intro b' j' _ hj' hne heq
    exact hne (Prod.ext (pairSid_inj _ _ _ _ _ hj' hj heq).1
      (pairSid_inj _ _ _ _ _ hj' hj heq).2)

/-- Witness for C7: in a run with one branch and one input, the events of
the (0, 0) pair's session are exactly its own open/nav/select/close
block. -/
theorem dexel_session_isolation_witness :
    (dexel_scrape_trace 1 [(205, 55, 16)]).map
        (List.filter (fun e => e.sid == pairSid 1 0 0)) =
      some (pair_session (pairSid 1 0 0) 0 (205, 55, 16)) := by
  obtain ⟨t, ht⟩ : ∃ t, dexel_scrape_trace 1 [(205, 55, 16)] = some t :=
    ⟨_, rfl⟩
  have h := dexel_session_isolation 1 [(205, 55, 16)] t ht 0 0
    (by norm_num) (by norm_num)
  rw [ht]
  exact congrArg some h.1
